import Mathlib

/-!
# Verification of `cad_overlay/detection.py` — `find_drawing_contour_box`

Shallow embedding of the contour-based drawing-box detector.

The OpenCV pipeline (cvtColor, GaussianBlur, Canny, findContours) is an
external library whose output is a list of contours; we abstract a contour
by exactly the attributes the repository's filtering logic reads from it:

 - `area`      : the value of cv2.contourArea(contour) (a nonnegative real,
                 modelled in ℚ; for integer-vertex polygons it is an exact
                 multiple of 1/2);
 - `approxLen` : len(cv2.approxPolyDP(contour, 0.02 * peri, True));
 - `x, y, w, h`: cv2.boundingRect(contour).

The filtering loop of lines 75-123 of detection.py is embedded verbatim on
this abstraction, quantified over arbitrary contour lists (which subsumes
every input image and every pair of Canny thresholds). Python floats are
modelled in ℚ: the literal 0.1 becomes 1/10 and 0.5/2.0 become 1/2 and 2;
at the comparisons performed (area < min_area, 0.5 < w/h < 2.0 with
integer w, h) the rational model and double arithmetic order the same
pairs except for values within double rounding error of the thresholds,
which do not arise for the strict integer-ratio comparisons.
-/

/-- A contour as seen by the filtering logic of `find_drawing_contour_box`. -/
structure Contour where
  /-- cv2.contourArea(contour) -/
  area : ℚ
  /-- len(cv2.approxPolyDP(contour, 0.02 * peri, True)) -/
  approxLen : ℕ
  /-- cv2.boundingRect(contour).x -/
  x : ℕ
  /-- cv2.boundingRect(contour).y -/
  y : ℕ
  /-- cv2.boundingRect(contour).w -/
  w : ℕ
  /-- cv2.boundingRect(contour).h -/
  h : ℕ
deriving Repr, DecidableEq

/-- The `(x, y, w, h)` tuple returned by the detector. -/
abbrev Rect := ℕ × ℕ × ℕ × ℕ

/-- `min_area = width * height * 0.1` (line 78), with the float literal 0.1
read as the rational 1/10. -/
def min_area (width height : ℕ) : ℚ :=
  (width : ℚ) * (height : ℚ) * (1 / 10)

/-- `aspect_ratio = w / float(h) if h > 0 else 0` (line 96). -/
def aspect_ratio (c : Contour) : ℚ :=
  if 0 < c.h then (c.w : ℚ) / (c.h : ℚ) else 0

/-- The vertex-count rule: `len(approx) == 4` (line 93). -/
def approx_is_quad (c : Contour) : Bool :=
  c.approxLen == 4

/-- The aspect-ratio rule: `0.5 < aspect_ratio < 2.0` (line 97). -/
def aspect_ok (c : Contour) : Bool :=
  decide (1 / 2 < aspect_ratio c ∧ aspect_ratio c < 2)

/-- The margin rule (lines 100-102):
`x > margin and y > margin and (x+w) < (width-margin) and (y+h) < (height-margin)`
with `margin = 5`. Python subtraction on ints can go negative, so the
right-hand sides are computed in ℤ. -/
def margin_ok (width height : ℕ) (c : Contour) : Bool :=
  decide ((5 : ℤ) < c.x ∧ (5 : ℤ) < c.y ∧
    (c.x : ℤ) + c.w < (width : ℤ) - 5 ∧ (c.y : ℤ) + c.h < (height : ℤ) - 5)

/-- The three shape rules applied after the area floor, in the nesting
order of the source (vertex count, then aspect ratio, then margin).
A contour failing any of them is skipped; the loop continues. -/
def passes_shape_rules (width height : ℕ) (c : Contour) : Bool :=
  approx_is_quad c && aspect_ok c && margin_ok width height c

/-- The bounding rectangle of a contour, `cv2.boundingRect(contour)` as the
tuple bound at line 94. -/
def rect_of (c : Contour) : Rect :=
  (c.x, c.y, c.w, c.h)

/-- The `for contour in sorted_contours` loop of lines 83-114, operating on
an (already sorted) contour list. Returns `some (x, y, w, h)` when a
contour sets `best_box` and breaks, `none` when the loop ends with
`found_box` still False. `area < min_area` breaks out of the loop
entirely (line 87); a failed shape rule merely moves to the next contour. -/
def scan_contours (width height : ℕ) : List Contour → Option Rect
  | [] => none
  | c :: rest =>
    if c.area < min_area width height then none
    else if passes_shape_rules width height c then some (rect_of c)
    else scan_contours width height rest

/-- The sort key relation for
`sorted(contours, key=cv2.contourArea, reverse=True)` (line 82):
`a` may precede `b` when `a`'s area is at least `b`'s. -/
def area_ge (a b : Contour) : Prop :=
  b.area ≤ a.area

instance : DecidableRel area_ge := fun a b => inferInstanceAs (Decidable (b.area ≤ a.area))

instance : IsTotal Contour area_ge :=
  ⟨fun a b => (le_total a.area b.area).symm⟩

instance : IsTrans Contour area_ge := ⟨fun _ _ _ hab hbc => le_trans hbc hab⟩

/-- `sorted(contours, key=cv2.contourArea, reverse=True)` (line 82): stable
descending sort by enclosed area. -/
def sort_by_area_desc (l : List Contour) : List Contour :=
  l.insertionSort area_ge

/-- A contour qualifies when it survives the whole rejection chain: the
area floor and the three shape rules. -/
def qualifies (width height : ℕ) (c : Contour) : Prop :=
  min_area width height ≤ c.area ∧ passes_shape_rules width height c = true

instance (width height : ℕ) (c : Contour) : Decidable (qualifies width height c) :=
  inferInstanceAs (Decidable (_ ∧ _))

/-- One event of the diagnostics sink: clearing a pre-existing folder
(shutil.rmtree, line 32), creating it (os.makedirs, line 33), or one
attempted artifact write with its success flag. -/
inductive DebugEvent where
  | clearSink : DebugEvent
  | makeSink : DebugEvent
  | write (name : String) (ok : Bool) : DebugEvent
deriving Repr, DecidableEq

/-- cv2.imwrite viewed through its Python exception behaviour: it either
succeeds or raises. `ok` abstracts whether the sink accepts this write. -/
def cv2_imwrite (ok : Bool) : Except String Unit :=
  if ok then Except.ok () else Except.error "imwrite failed"

/-- `_save_debug_image` (lines 38-50): the cv2.imwrite call is wrapped in
try/except; a raised exception is converted into a printed warning and
never propagated, so the helper always returns, logging one write event
with the outcome. -/
def save_debug_image (name : String) (ok : Bool) : List DebugEvent :=
  match cv2_imwrite ok with
  | Except.ok () => [DebugEvent.write name true]
  | Except.error _ => [DebugEvent.write name false]

/-- The diagnostics sink as the embedding sees it: whether the folder
already exists (decides the rmtree at line 31-32) and which artifact
names the underlying cv2.imwrite would accept. -/
structure DebugSink where
  sinkExists : Bool
  imwriteOk : String → Bool

/-- `find_drawing_contour_box` (detection.py lines 7-123). The image enters
only through its dimensions and the contour list the OpenCV pipeline
extracts from it; `debugFolder` is `some sink` when a diagnostics folder
is supplied and `none` otherwise (in which case `save_debug_step` is the
no-op lambda of line 24). Returns the box together with the ordered list
of sink events. -/
def find_drawing_contour_box (width height : ℕ) (contours : List Contour)
    (debugFolder : Option DebugSink) : Rect × List DebugEvent :=
  let setup : List DebugEvent :=
    match debugFolder with
    | none => []
    | some sink =>
        (if sink.sinkExists then [DebugEvent.clearSink] else []) ++ [DebugEvent.makeSink]
  let save_debug_step : String → List DebugEvent := fun name =>
    match debugFolder with
    | none => []
    | some sink => save_debug_image name (sink.imwriteOk name)
  let preLoop : List DebugEvent :=
    setup ++ save_debug_step "debug_1_gray" ++ save_debug_step "debug_2_blurred" ++
      save_debug_step "debug_3_canny_edges" ++ save_debug_step "debug_4_all_contours"
  match scan_contours width height (sort_by_area_desc contours) with
  | some r => (r, preLoop ++ save_debug_step "debug_5_best_contour_box")
  | none => ((0, 0, width, height), preLoop)

/-- Number of artifact-write events in a sink trace. -/
def write_count (events : List DebugEvent) : ℕ :=
  (events.filter fun e => match e with | DebugEvent.write _ _ => true | _ => false).length

/-- The BoundingBox invariant of the spec, for an image of the given
dimensions. -/
def box_invariant (width height : ℕ) (r : Rect) : Prop :=
  0 < r.2.2.1 ∧ 0 < r.2.2.2 ∧ r.1 + r.2.2.1 ≤ width ∧ r.2.1 + r.2.2.2 ≤ height

instance (width height : ℕ) (r : Rect) : Decidable (box_invariant width height r) :=
  inferInstanceAs (Decidable (_ ∧ _ ∧ _ ∧ _))

/-! ## Helper lemmas about the scan -/

/-- A selected rectangle comes from a member of the scanned list that
survives the whole rejection chain. -/
lemma scan_contours_some_mem {width height : ℕ} :
    ∀ {l : List Contour} {r : Rect}, scan_contours width height l = some r →
      ∃ c ∈ l, qualifies width height c ∧ rect_of c = r := by
  intro l
  induction l with
  | nil => intro r hr; simp [scan_contours] at hr
  | cons c rest ih =>
    intro r hr
    by_cases hlt : c.area < min_area width height
    · simp [scan_contours, hlt] at hr
    · by_cases hp : passes_shape_rules width height c = true
      · refine ⟨c, List.mem_cons_self c rest, ⟨le_of_not_lt hlt, hp⟩, ?_⟩
        simp [scan_contours, hlt, hp] at hr
        exact hr
      · have hr' : scan_contours width height rest = some r := by
          simpa [scan_contours, hlt, hp] using hr
        obtain ⟨d, hd, hq, he⟩ := ih hr'
        exact ⟨d, List.mem_cons_of_mem c hd, hq, he⟩

/-- On a list sorted by descending area, if some member qualifies then the
scan selects one; the selected contour has maximal area among all
qualifying members. -/
lemma scan_contours_sorted_max {width height : ℕ} :
    ∀ {l : List Contour}, l.Sorted area_ge →
      (∃ c ∈ l, qualifies width height c) →
      ∃ c ∈ l, qualifies width height c ∧
        scan_contours width height l = some (rect_of c) ∧
        ∀ c' ∈ l, qualifies width height c' → c'.area ≤ c.area := by
  intro l
  induction l with
  | nil => intro _ h; simp at h
  | cons c rest ih =>
    intro hs hq
    have hs' : rest.Sorted area_ge := hs.of_cons
    have hrel : ∀ d ∈ rest, d.area ≤ c.area := fun d hd =>
      List.rel_of_sorted_cons hs d hd
    by_cases hlt : c.area < min_area width height
    · exfalso
      obtain ⟨d, hd, hdq⟩ := hq
      rcases List.mem_cons.mp hd with h1 | h2
      · rw [h1] at hdq
        exact absurd hdq.1 (not_le.mpr hlt)
      · exact absurd hdq.1 (not_le.mpr (lt_of_le_of_lt (hrel d h2) hlt))
    · by_cases hp : passes_shape_rules width height c = true
      · refine ⟨c, List.mem_cons_self c rest, ⟨le_of_not_lt hlt, hp⟩, ?_, ?_⟩
        · simp [scan_contours, hlt, hp]
        · intro c' hc' _
          rcases List.mem_cons.mp hc' with h1 | h2
          · exact le_of_eq (by rw [h1])
          · exact hrel c' h2
      · have hqr : ∃ d ∈ rest, qualifies width height d := by
          obtain ⟨d, hd, hdq⟩ := hq
          rcases List.mem_cons.mp hd with h1 | h2
          · exact absurd hdq.2 (by rw [h1]; exact hp)
          · exact ⟨d, h2, hdq⟩
        obtain ⟨d, hd, hdq, hscan, hmax⟩ := ih hs' hqr
        refine ⟨d, List.mem_cons_of_mem c hd, hdq, ?_, ?_⟩
        · simpa [scan_contours, hlt, hp] using hscan
        · intro c' hc' hq'
          rcases List.mem_cons.mp hc' with h1 | h2
          · exact absurd hq'.2 (by rw [h1]; exact hp)
          · exact hmax c' h2 hq'

/-- The sorted list is a permutation of the input, so membership transfers. -/
lemma mem_sort_by_area_desc {c : Contour} {l : List Contour} :
    c ∈ sort_by_area_desc l ↔ c ∈ l :=
  List.Perm.mem_iff (List.perm_insertionSort area_ge l)

/-- The sort produces a list sorted by descending area. -/
lemma sorted_sort_by_area_desc (l : List Contour) :
    (sort_by_area_desc l).Sorted area_ge :=
  List.sorted_insertionSort area_ge l

/-- If no member of the contour list qualifies, the scan of the sorted list
selects nothing. -/
lemma scan_sort_eq_none {width height : ℕ} {l : List Contour}
    (h : ∀ c ∈ l, ¬ qualifies width height c) :
    scan_contours width height (sort_by_area_desc l) = none := by
  cases hs : scan_contours width height (sort_by_area_desc l) with
  | none => rfl
  | some r =>
    obtain ⟨c, hc, hq, _⟩ := scan_contours_some_mem hs
    exact absurd hq (h c (mem_sort_by_area_desc.mp hc))

/-- Geometric bounds forced by the shape rules on a selected contour. -/
lemma selected_bounds {width height : ℕ} {c : Contour}
    (h : passes_shape_rules width height c = true) :
    6 ≤ c.x ∧ 6 ≤ c.y ∧ 0 < c.w ∧ 0 < c.h ∧
      c.x + c.w + 6 ≤ width ∧ c.y + c.h + 6 ≤ height := by
  have ⟨⟨h4, hasp⟩, hmar⟩ : (approx_is_quad c = true ∧ aspect_ok c = true) ∧
      margin_ok width height c = true := by
    simpa [passes_shape_rules, Bool.and_eq_true] using h
  have hm := of_decide_eq_true hmar
  obtain ⟨hx, hy, hxw, hyh⟩ := hm
  have ha := of_decide_eq_true hasp
  have hh : 0 < c.h := by
    by_contra hh0
    rw [aspect_ratio, if_neg hh0] at ha
    exact absurd ha.1 (by norm_num)
  have hw : 0 < c.w := by
    by_contra hw0
    have hw0' : c.w = 0 := Nat.eq_zero_of_not_pos hw0
    rw [aspect_ratio, if_pos hh, hw0'] at ha
    have : (1 : ℚ) / 2 < 0 := by simpa using ha.1
    norm_num at this
  refine ⟨?_, ?_, hw, hh, ?_, ?_⟩ <;> omega

/-- When the loop selects a box, that box is returned — the diagnostics
argument does not enter. -/
lemma find_fst_of_scan_some {width height : ℕ} {contours : List Contour}
    {debugFolder : Option DebugSink} {r : Rect}
    (hs : scan_contours width height (sort_by_area_desc contours) = some r) :
    (find_drawing_contour_box width height contours debugFolder).1 = r := by
  simp [find_drawing_contour_box, hs]

/-- When the loop selects nothing, the full-image box is returned — the
diagnostics argument does not enter. -/
lemma find_fst_of_scan_none {width height : ℕ} {contours : List Contour}
    {debugFolder : Option DebugSink}
    (hs : scan_contours width height (sort_by_area_desc contours) = none) :
    (find_drawing_contour_box width height contours debugFolder).1 = (0, 0, width, height) := by
  simp [find_drawing_contour_box, hs]

/-- One attempted save logs exactly one write event carrying the outcome. -/
lemma save_debug_image_eq (name : String) (ok : Bool) :
    save_debug_image name ok = [DebugEvent.write name ok] := by
  cases ok <;> rfl

/-! ## Claims -/

/-- C1: For every well-formed input image (positive dimensions) and any
thresholds (subsumed by quantifying over all contour lists), the detector
returns a box with nonnegative origin, positive width and height, fully
contained in the image; it never fails and never returns a zero-area or
out-of-bounds box. -/
theorem C1_detect_box_invariant (width height : ℕ) (contours : List Contour)
    (debugFolder : Option DebugSink) (hw : 0 < width) (hh : 0 < height) :
    0 ≤ (find_drawing_contour_box width height contours debugFolder).1.1 ∧
    0 ≤ (find_drawing_contour_box width height contours debugFolder).1.2.1 ∧
    box_invariant width height (find_drawing_contour_box width height contours debugFolder).1 := by
  cases hs : scan_contours width height (sort_by_area_desc contours) with
  | none =>
    rw [find_fst_of_scan_none hs]
    exact ⟨Nat.zero_le _, Nat.zero_le _, hw, hh, by simp, by simp⟩
  | some r =>
    rw [find_fst_of_scan_some hs]
    obtain ⟨c, _, hq, he⟩ := scan_contours_some_mem hs
    obtain ⟨hx, hy, hwpos, hhpos, hxw, hyh⟩ := selected_bounds hq.2
    subst he
    simp only [box_invariant, rect_of]
    exact ⟨Nat.zero_le _, Nat.zero_le _, hwpos, hhpos, by omega, by omega⟩

/-- C1 witness at a concrete image and contour list. -/
theorem C1_detect_box_invariant_witness :
    0 ≤ (find_drawing_contour_box 100 100 [⟨2000, 4, 10, 10, 50, 40⟩] none).1.1 ∧
    0 ≤ (find_drawing_contour_box 100 100 [⟨2000, 4, 10, 10, 50, 40⟩] none).1.2.1 ∧
    box_invariant 100 100 (find_drawing_contour_box 100 100 [⟨2000, 4, 10, 10, 50, 40⟩] none).1 :=
  C1_detect_box_invariant 100 100 [⟨2000, 4, 10, 10, 50, 40⟩] none (by decide) (by decide)

/-- C3: Whenever no contour survives the rejection chain (in particular
when the contour set is empty), the detector returns exactly the
full-image box, with no error path. -/
theorem C3_fallback_full_image (width height : ℕ) (contours : List Contour)
    (debugFolder : Option DebugSink)
    (h : ∀ c ∈ contours, ¬ qualifies width height c) :
    (find_drawing_contour_box width height contours debugFolder).1 =
      (0, 0, width, height) := by
  exact find_fst_of_scan_none (scan_sort_eq_none h)

/-- C3 witness: the empty contour set (a blank image) yields the fallback. -/
theorem C3_fallback_full_image_witness :
    (find_drawing_contour_box 640 480 [] none).1 = (0, 0, 640, 480) :=
  C3_fallback_full_image 640 480 [] none (by simp)

/-- C5: The margin rule with margin = 5 rejects exactly when x ≤ 5, y ≤ 5,
x+w ≥ width−5, or y+h ≥ height−5; a candidate at x = 5 (all else
qualifying) is rejected and the same candidate at x = 6 is accepted and
its rectangle returned. -/
theorem C5_margin_rule (width height : ℕ) (c : Contour) :
    (margin_ok width height c = false ↔
      (c.x ≤ 5 ∨ c.y ≤ 5 ∨ (width : ℤ) - 5 ≤ (c.x : ℤ) + c.w ∨
        (height : ℤ) - 5 ≤ (c.y : ℤ) + c.h)) ∧
    (find_drawing_contour_box 100 100 [⟨2000, 4, 5, 10, 50, 40⟩] none).1 = (0, 0, 100, 100) ∧
    (find_drawing_contour_box 100 100 [⟨2000, 4, 6, 10, 50, 40⟩] none).1 = (6, 10, 50, 40) := by
  refine ⟨?_, ?_, ?_⟩
  · simp only [margin_ok, decide_eq_false_iff_not, not_and_or, not_lt]
    omega
  · norm_num [find_drawing_contour_box, sort_by_area_desc, scan_contours, min_area,
      passes_shape_rules, approx_is_quad, aspect_ok, aspect_ratio, margin_ok, rect_of]
  · norm_num [find_drawing_contour_box, sort_by_area_desc, scan_contours, min_area,
      passes_shape_rules, approx_is_quad, aspect_ok, aspect_ratio, margin_ok, rect_of]

/-- C6: The aspect-ratio rule rejects exactly when h = 0 or w/h lies
outside the open interval (1/2, 2); the boundary ratios 1/2 and 2 are
rejected and a strictly interior ratio passes. -/
theorem C6_aspect_rule (c : Contour) :
    (aspect_ok c = false ↔
      (c.h = 0 ∨ (c.w : ℚ) / (c.h : ℚ) ≤ 1 / 2 ∨ 2 ≤ (c.w : ℚ) / (c.h : ℚ))) ∧
    aspect_ok ⟨2000, 4, 10, 10, 20, 40⟩ = false ∧
    aspect_ok ⟨2000, 4, 10, 10, 40, 20⟩ = false ∧
    aspect_ok ⟨2000, 4, 10, 10, 30, 40⟩ = true ∧
    aspect_ok ⟨2000, 4, 10, 10, 21, 40⟩ = true ∧
    aspect_ok ⟨2000, 4, 10, 10, 39, 20⟩ = true := by
  refine ⟨?_, by norm_num [aspect_ok, aspect_ratio], by norm_num [aspect_ok, aspect_ratio],
    by norm_num [aspect_ok, aspect_ratio], by norm_num [aspect_ok, aspect_ratio],
    by norm_num [aspect_ok, aspect_ratio]⟩
  by_cases hh : 0 < c.h
  · simp only [aspect_ok, aspect_ratio, if_pos hh, decide_eq_false_iff_not, not_and_or, not_lt]
    constructor
    · rintro (h1 | h2)
      · exact Or.inr (Or.inl h1)
      · exact Or.inr (Or.inr h2)
    · rintro (h0 | h1 | h2)
      · exact absurd h0 (Nat.pos_iff_ne_zero.mp hh)
      · exact Or.inl h1
      · exact Or.inr h2
  · have h0 : c.h = 0 := Nat.eq_zero_of_not_pos hh
    simp [aspect_ok, aspect_ratio, hh, h0]

/-- C7: Supplying a diagnostics sink never changes the returned box — the
sink influences only the event trace. -/
theorem C7_debug_observation_only (width height : ℕ) (contours : List Contour)
    (sink : DebugSink) :
    (find_drawing_contour_box width height contours (some sink)).1 =
      (find_drawing_contour_box width height contours none).1 := by
  cases hs : scan_contours width height (sort_by_area_desc contours) with
  | none => rw [find_fst_of_scan_none hs, find_fst_of_scan_none hs]
  | some r => rw [find_fst_of_scan_some hs, find_fst_of_scan_some hs]

/-- C2: The scan halts at the first contour below the area floor (no later
contour is tested by any rule), halts at the first contour passing every
rule, the scanned list is sorted by descending area, and the contour the
detector selects has maximal area among all qualifying contours — in
particular, of two qualifying contours of different areas the larger one
is selected. -/
theorem C2_descending_first_match (width height : ℕ) :
    (∀ (c : Contour) (rest : List Contour), c.area < min_area width height →
        scan_contours width height (c :: rest) = none) ∧
    (∀ (c : Contour) (rest : List Contour), min_area width height ≤ c.area →
        passes_shape_rules width height c = true →
        scan_contours width height (c :: rest) = some (rect_of c)) ∧
    (∀ l : List Contour, (sort_by_area_desc l).Sorted area_ge) ∧
    (∀ contours : List Contour, (∃ c ∈ contours, qualifies width height c) →
        ∃ c ∈ contours, qualifies width height c ∧
          (find_drawing_contour_box width height contours none).1 = rect_of c ∧
          ∀ c' ∈ contours, qualifies width height c' → c'.area ≤ c.area) := by
  refine ⟨?_, ?_, sorted_sort_by_area_desc, ?_⟩
  · intro c rest h
    simp [scan_contours, h]
  · intro c rest h hp
    simp [scan_contours, not_lt.mpr h, hp]
  · intro contours hq
    have hq' : ∃ c ∈ sort_by_area_desc contours, qualifies width height c := by
      obtain ⟨c, hc, hcq⟩ := hq
      exact ⟨c, mem_sort_by_area_desc.mpr hc, hcq⟩
    obtain ⟨c, hc, hcq, hscan, hmax⟩ :=
      scan_contours_sorted_max (sorted_sort_by_area_desc contours) hq'
    refine ⟨c, mem_sort_by_area_desc.mp hc, hcq, find_fst_of_scan_some hscan, ?_⟩
    intro c' hc' hq''
    exact hmax c' (mem_sort_by_area_desc.mpr hc') hq''

/-- C2 witness: the area floor short-circuits; a passing head is selected
at once; with two qualifying contours the larger-area one wins. -/
theorem C2_descending_first_match_witness :
    scan_contours 100 100 [⟨999, 4, 10, 10, 50, 40⟩, ⟨2000, 4, 10, 10, 50, 40⟩] = none ∧
    scan_contours 100 100 [⟨2000, 4, 10, 10, 50, 40⟩] = some (10, 10, 50, 40) ∧
    (∃ c ∈ [(⟨1500, 4, 20, 20, 30, 30⟩ : Contour), ⟨2000, 4, 10, 10, 50, 40⟩],
      qualifies 100 100 c ∧
      (find_drawing_contour_box 100 100
        [⟨1500, 4, 20, 20, 30, 30⟩, ⟨2000, 4, 10, 10, 50, 40⟩] none).1 = rect_of c ∧
      ∀ c' ∈ [(⟨1500, 4, 20, 20, 30, 30⟩ : Contour), ⟨2000, 4, 10, 10, 50, 40⟩],
        qualifies 100 100 c' → c'.area ≤ c.area) := by
  refine ⟨(C2_descending_first_match 100 100).1 _ _ (by norm_num [min_area]),
    (C2_descending_first_match 100 100).2.1 _ _ (by norm_num [min_area])
      (by norm_num [passes_shape_rules, approx_is_quad, aspect_ok, aspect_ratio, margin_ok]),
    (C2_descending_first_match 100 100).2.2.2 _
      ⟨⟨2000, 4, 10, 10, 50, 40⟩, List.mem_cons_of_mem _ (List.mem_cons_self _ _), ?_⟩⟩
  exact ⟨by norm_num [min_area],
    by norm_num [passes_shape_rules, approx_is_quad, aspect_ok, aspect_ratio, margin_ok]⟩

/-- C4: A contour strictly below min_area = width·height·(1/10) terminates
the scan; one at or above it passes the area floor and is judged by the
remaining rules alone; concretely, at 100×100 a qualifying contour of
area exactly 1000 (10%) is accepted and one of area 999 (10% minus one
pixel) is rejected. -/
theorem C4_area_floor_boundary (width height : ℕ) :
    (∀ (c : Contour) (rest : List Contour), c.area < min_area width height →
        scan_contours width height (c :: rest) = none) ∧
    (∀ (c : Contour) (rest : List Contour), min_area width height ≤ c.area →
        scan_contours width height (c :: rest) =
          if passes_shape_rules width height c then some (rect_of c)
          else scan_contours width height rest) ∧
    (find_drawing_contour_box 100 100 [⟨1000, 4, 10, 10, 50, 40⟩] none).1 = (10, 10, 50, 40) ∧
    (find_drawing_contour_box 100 100 [⟨999, 4, 10, 10, 50, 40⟩] none).1 = (0, 0, 100, 100) := by
  refine ⟨?_, ?_, ?_, ?_⟩
  · intro c rest h
    simp [scan_contours, h]
  · intro c rest h
    simp [scan_contours, not_lt.mpr h]
  · norm_num [find_drawing_contour_box, sort_by_area_desc, scan_contours, min_area,
      passes_shape_rules, approx_is_quad, aspect_ok, aspect_ratio, margin_ok, rect_of]
  · norm_num [find_drawing_contour_box, sort_by_area_desc, scan_contours, min_area,
      passes_shape_rules, approx_is_quad, aspect_ok, aspect_ratio, margin_ok, rect_of]

/-- C4 witness: the two universally quantified floor rules instantiated at
a concrete image and contour. -/
theorem C4_area_floor_boundary_witness :
    scan_contours 100 100 [⟨999, 4, 10, 10, 50, 40⟩] = none ∧
    scan_contours 100 100 [⟨1000, 4, 10, 10, 50, 40⟩] =
      (if passes_shape_rules 100 100 ⟨1000, 4, 10, 10, 50, 40⟩
        then some (rect_of ⟨1000, 4, 10, 10, 50, 40⟩)
        else scan_contours 100 100 []) :=
  ⟨(C4_area_floor_boundary 100 100).1 _ [] (by norm_num [min_area]),
   (C4_area_floor_boundary 100 100).2.1 _ [] (by norm_num [min_area])⟩

/-- C8: With a sink supplied, the trace starts by clearing any pre-existing
sink, then creates it, then writes the four fixed artifacts in order, and
ends with the fifth (chosen-contour) artifact exactly when a contour was
selected: five writes on selection, four on fallback. -/
theorem C8_diagnostic_artifacts (width height : ℕ) (contours : List Contour)
    (sink : DebugSink) :
    (find_drawing_contour_box width height contours (some sink)).2 =
      (if sink.sinkExists then [DebugEvent.clearSink] else []) ++ [DebugEvent.makeSink] ++
        [DebugEvent.write "debug_1_gray" (sink.imwriteOk "debug_1_gray"),
         DebugEvent.write "debug_2_blurred" (sink.imwriteOk "debug_2_blurred"),
         DebugEvent.write "debug_3_canny_edges" (sink.imwriteOk "debug_3_canny_edges"),
         DebugEvent.write "debug_4_all_contours" (sink.imwriteOk "debug_4_all_contours")] ++
        (if (scan_contours width height (sort_by_area_desc contours)).isSome then
           [DebugEvent.write "debug_5_best_contour_box" (sink.imwriteOk "debug_5_best_contour_box")]
         else []) ∧
    write_count (find_drawing_contour_box width height contours (some sink)).2 =
      (if (scan_contours width height (sort_by_area_desc contours)).isSome then 5 else 4) := by
  cases hs : scan_contours width height (sort_by_area_desc contours) with
  | none =>
    cases hex : sink.sinkExists <;>
      exact ⟨by simp [find_drawing_contour_box, hs, hex, save_debug_image_eq],
        by simp [find_drawing_contour_box, hs, hex, save_debug_image_eq, write_count,
          List.filter]⟩
  | some r =>
    cases hex : sink.sinkExists <;>
      exact ⟨by simp [find_drawing_contour_box, hs, hex, save_debug_image_eq],
        by simp [find_drawing_contour_box, hs, hex, save_debug_image_eq, write_count,
          List.filter]⟩

/-- C9: A failing imwrite is absorbed by the try/except of
_save_debug_image — it becomes a logged event — so even an entirely
unwritable sink leaves the returned box identical to the no-sink run, and
every write event of such a run records the reported failure. -/
theorem C9_sink_failure_nonfatal (width height : ℕ) (contours : List Contour)
    (ex : Bool) :
    (∀ name : String, save_debug_image name false = [DebugEvent.write name false]) ∧
    (find_drawing_contour_box width height contours (some ⟨ex, fun _ => false⟩)).1 =
      (find_drawing_contour_box width height contours none).1 ∧
    (∀ name ok, DebugEvent.write name ok ∈
        (find_drawing_contour_box width height contours (some ⟨ex, fun _ => false⟩)).2 →
      ok = false) := by
  refine ⟨fun name => save_debug_image_eq name false, ?_, ?_⟩
  · cases hs : scan_contours width height (sort_by_area_desc contours) with
    | none => rw [find_fst_of_scan_none hs, find_fst_of_scan_none hs]
    | some r => rw [find_fst_of_scan_some hs, find_fst_of_scan_some hs]
  · intro name ok hmem
    cases hs : scan_contours width height (sort_by_area_desc contours) with
    | none =>
      cases ex <;> simp [find_drawing_contour_box, hs, save_debug_image_eq] at hmem <;>
        tauto
    | some r =>
      cases ex <;> simp [find_drawing_contour_box, hs, save_debug_image_eq] at hmem <;>
        tauto

/-- C9 witness: an existing but fully unwritable sink at a concrete image;
the box matches the no-sink run and the logged first artifact write
records failure. -/
theorem C9_sink_failure_nonfatal_witness :
    (find_drawing_contour_box 100 100 [⟨2000, 4, 10, 10, 50, 40⟩]
        (some ⟨true, fun _ => false⟩)).1 =
      (find_drawing_contour_box 100 100 [⟨2000, 4, 10, 10, 50, 40⟩] none).1 ∧
    false = false :=
  ⟨(C9_sink_failure_nonfatal 100 100 [⟨2000, 4, 10, 10, 50, 40⟩] true).2.1,
   (C9_sink_failure_nonfatal 100 100 [⟨2000, 4, 10, 10, 50, 40⟩] true).2.2
     "debug_1_gray" false
     (by norm_num [find_drawing_contour_box, sort_by_area_desc, scan_contours, min_area,
        passes_shape_rules, approx_is_quad, aspect_ok, aspect_ratio, margin_ok, rect_of,
        save_debug_image, cv2_imwrite])⟩

/-- C10: The detector returns the full-image box exactly when the loop
selected nothing; any selected box has x ≥ 6 and y ≥ 6 and therefore
differs from the full-image box, so the fallback is unambiguous at the
interface. -/
theorem C10_fallback_distinguishable (width height : ℕ) (contours : List Contour)
    (debugFolder : Option DebugSink) :
    ((find_drawing_contour_box width height contours debugFolder).1 = (0, 0, width, height) ↔
      scan_contours width height (sort_by_area_desc contours) = none) ∧
    (∀ r, scan_contours width height (sort_by_area_desc contours) = some r →
      6 ≤ r.1 ∧ 6 ≤ r.2.1 ∧
      (find_drawing_contour_box width height contours debugFolder).1 = r ∧
      r ≠ (0, 0, width, height)) := by
  have haux : ∀ r, scan_contours width height (sort_by_area_desc contours) = some r →
      6 ≤ r.1 ∧ 6 ≤ r.2.1 ∧
      (find_drawing_contour_box width height contours debugFolder).1 = r ∧
      r ≠ (0, 0, width, height) := by
    intro r hs
    obtain ⟨c, _, hq, he⟩ := scan_contours_some_mem hs
    obtain ⟨hx, hy, _, _, _, _⟩ := selected_bounds hq.2
    subst he
    refine ⟨hx, hy, find_fst_of_scan_some hs, ?_⟩
    intro hcontra
    have : c.x = 0 := congrArg Prod.fst hcontra
    omega
  refine ⟨⟨?_, fun hs => find_fst_of_scan_none hs⟩, haux⟩
  intro hfull
  cases hs : scan_contours width height (sort_by_area_desc contours) with
  | none => rfl
  | some r =>
    obtain ⟨_, _, hfind, hne⟩ := haux r hs
    exact absurd (hfind ▸ hfull) hne

/-- C10 witness: a concrete selected box with x = y = 10, distinct from the
full-image box. -/
theorem C10_fallback_distinguishable_witness :
    6 ≤ ((10, 10, 50, 40) : Rect).1 ∧ 6 ≤ ((10, 10, 50, 40) : Rect).2.1 ∧
    (find_drawing_contour_box 100 100 [⟨2000, 4, 10, 10, 50, 40⟩] none).1 = (10, 10, 50, 40) ∧
    ((10, 10, 50, 40) : Rect) ≠ (0, 0, 100, 100) :=
  (C10_fallback_distinguishable 100 100 [⟨2000, 4, 10, 10, 50, 40⟩] none).2
    (10, 10, 50, 40)
    (by norm_num [sort_by_area_desc, scan_contours, min_area, passes_shape_rules,
      approx_is_quad, aspect_ok, aspect_ratio, margin_ok, rect_of])
